import Mathlib

/-!
Shallow embedding of the GTID / GTIDManager replication-identifier core
(`src/mongo/db/gtid.cpp`) and of the collection index-catalog accessors and
write-flag constants (`src/mongo/db/collection.h`) of the mongo storage layer.

Machine integers: the C++ code stores both GTID halves as `uint64_t`.
They are modelled as `Nat` together with an explicit `% 2^64` wherever the
source performs arithmetic that can overflow (`inc`, `inc_primary`), and a
`Wellformed` predicate capturing the `uint64_t` range constraint on values
received from outside.

The file is laid out as: all definitions first, then the theorems.
-/

namespace Mongo

/-- The `uint64_t` modulus, `2^64`. -/
def u64 : Nat := 2 ^ 64

/-- GTID — a pair `(_primarySeqNo, _GTSeqNo)`, both `uint64_t` in the source. -/
@[ext] structure GTID where
  primarySeqNo : Nat
  GTSeqNo : Nat
deriving DecidableEq

namespace GTID

/-- The `uint64_t` range constraint on both halves. -/
abbrev Wellformed (g : GTID) : Prop := g.primarySeqNo < u64 ∧ g.GTSeqNo < u64

/-- Lexicographic order on the pair — the order computed by `GTID::cmp`. -/
instance : LinearOrder GTID where
  le a b := a.primarySeqNo < b.primarySeqNo ∨
    (a.primarySeqNo = b.primarySeqNo ∧ a.GTSeqNo ≤ b.GTSeqNo)
  le_refl a := Or.inr ⟨rfl, le_refl _⟩
  le_trans a b c hab hbc := by
    rcases hab with h | ⟨h1, h2⟩ <;> rcases hbc with h' | ⟨h1', h2'⟩ <;>
      [exact Or.inl (h.trans h'); exact Or.inl (h1' ▸ h);
       exact Or.inl (h1 ▸ h'); exact Or.inr ⟨h1.trans h1', h2.trans h2'⟩]
  le_antisymm a b hab hba := by
    rcases hab with h | ⟨h1, h2⟩ <;> rcases hba with h' | ⟨h1', h2'⟩ <;>
      first
        | exact absurd h (by omega)
        | exact GTID.ext (by omega) (by omega)
  le_total a b := by
    rcases Nat.lt_trichotomy a.primarySeqNo b.primarySeqNo with h | h | h
    · exact Or.inl (Or.inl h)
    · rcases Nat.le_total a.GTSeqNo b.GTSeqNo with h' | h'
      · exact Or.inl (Or.inr ⟨h, h'⟩)
      · exact Or.inr (Or.inr ⟨h.symm, h'⟩)
    · exact Or.inr (Or.inl h)
  decidableLE a b := inferInstanceAs (Decidable (a.primarySeqNo < b.primarySeqNo ∨
    (a.primarySeqNo = b.primarySeqNo ∧ a.GTSeqNo ≤ b.GTSeqNo)))

/-- `GTID::cmp` — returns −1/0/1 comparing `_primarySeqNo` first, then `_GTSeqNo`. -/
def cmp (a b : GTID) : Int :=
  if a.primarySeqNo ≠ b.primarySeqNo then
    (if a.primarySeqNo < b.primarySeqNo then -1 else 1)
  else if a.GTSeqNo = b.GTSeqNo then 0
  else if a.GTSeqNo < b.GTSeqNo then -1 else 1

/-- `GTID::GTIDBinarySize` — `2*sizeof(uint64_t)` bytes. -/
def GTIDBinarySize : Nat := 2 * 8

/-- `GTID::inc` — `_GTSeqNo++` on a `uint64_t` (wraps at `2^64`). -/
def inc (g : GTID) : GTID := ⟨g.primarySeqNo, (g.GTSeqNo + 1) % u64⟩

/-- `GTID::inc_primary` — `_primarySeqNo++` (wraps at `2^64`), `_GTSeqNo = 0`. -/
def inc_primary (g : GTID) : GTID := ⟨(g.primarySeqNo + 1) % u64, 0⟩

end GTID

/-- The `n` bytes of `x`, most significant first (`256 = 2^8` per byte).
`beBytesAux 8 x` is the byte image a `uint64_t` `x` leaves in memory after
`SWAP64` on a little-endian host: `SWAP64` reverses the eight bytes, so the
`memcpy` in `GTID::serializeBinaryData` stores `x` big-endian. -/
def beBytesAux : Nat → Nat → List Nat
  | 0, _ => []
  | n + 1, x => x / 256 ^ n :: beBytesAux n (x % 256 ^ n)

/-- The value of a big-endian byte list — what `GTID::GTID(const char*)`
computes by reading a `uint64_t` and applying `SWAP64` to it. -/
def fromBEBytes : List Nat → Nat
  | [] => 0
  | b :: bs => b * 256 ^ bs.length + fromBEBytes bs

/-- Three-way comparison on `Nat`, with the −1/0/1 convention of the source. -/
def natCmpInt (x y : Nat) : Int := if x < y then -1 else if y < x then 1 else 0

/-- Byte-wise lexicographic comparison of two equal-length byte strings,
as `memcmp` performs on the serialized GTID keys. -/
def memcmpBytes : List Nat → List Nat → Int
  | a :: as, b :: bs => if a < b then -1 else if b < a then 1 else memcmpBytes as bs
  | _, _ => 0

/-- `GTID::serializeBinaryData` — writes `_primarySeqNo` then `_GTSeqNo`,
each as 8 big-endian bytes (via `SWAP64` + `memcpy`). -/
def GTID.serializeBinaryData (g : GTID) : List Nat :=
  beBytesAux 8 g.primarySeqNo ++ beBytesAux 8 g.GTSeqNo

/-- `GTID::GTID(const char* binData)` — reads 8 bytes for `_primarySeqNo`
and the next 8 bytes for `_GTSeqNo`, both big-endian (via `SWAP64`). -/
def GTID.ofBinData (bs : List Nat) : GTID :=
  ⟨fromBEBytes (bs.take 8), fromBEBytes ((bs.drop 8).take 8)⟩

/-- The state of a `GTIDManager`: the members mutated under `_lock`.
`std::set<GTID>` is modelled as a `Finset GTID`. -/
structure GTIDManagerState where
  _nextLiveGTID : GTID
  _minLiveGTID : GTID
  _liveGTIDs : Finset GTID
  _nextUnappliedGTID : GTID
  _minUnappliedGTID : GTID
  _unappliedGTIDs : Finset GTID
deriving DecidableEq

/-- `GTIDManager::GTIDManager(GTID lastGTID)`: `_nextLiveGTID = lastGTID.inc()`,
`_minLiveGTID = _nextLiveGTID`; the remaining members are default-constructed
(`GTID()` is `(0,0)`, the sets are empty) — the source notes that
`_minUnappliedGTID` is not set. -/
def GTIDManagerInit (lastGTID : GTID) : GTIDManagerState :=
  { _nextLiveGTID := lastGTID.inc
    _minLiveGTID := lastGTID.inc
    _liveGTIDs := ∅
    _nextUnappliedGTID := ⟨0, 0⟩
    _minUnappliedGTID := ⟨0, 0⟩
    _unappliedGTIDs := ∅ }

/-- `GTIDManager::getGTIDForPrimary` — returns `_nextLiveGTID`, inserts it
into `_liveGTIDs`, then increments `_nextLiveGTID`. -/
def getGTIDForPrimary (s : GTIDManagerState) : GTID × GTIDManagerState :=
  (s._nextLiveGTID,
    { s with
      _liveGTIDs := insert s._nextLiveGTID s._liveGTIDs
      _nextLiveGTID := s._nextLiveGTID.inc })

/-- The `dassert`s of `GTIDManager::noteLiveGTIDDone`:
`GTID::cmp(gtid, _minLiveGTID) >= 0` and `_liveGTIDs.size() > 0`. -/
abbrev noteLiveGTIDDonePre (s : GTIDManagerState) (gtid : GTID) : Prop :=
  0 ≤ GTID.cmp gtid s._minLiveGTID ∧ 0 < s._liveGTIDs.card

/-- `GTIDManager::noteLiveGTIDDone` — erase `gtid` from `_liveGTIDs`; if it was
`_minLiveGTID`, recompute `_minLiveGTID` (the set minimum, or `_nextLiveGTID`
when the set became empty) and mirror it into `_minUnappliedGTID`. -/
def noteLiveGTIDDone (s : GTIDManagerState) (gtid : GTID) : GTIDManagerState :=
  let live := s._liveGTIDs.erase gtid
  if GTID.cmp s._minLiveGTID gtid = 0 then
    if h : live.card = 0 then
      { s with _liveGTIDs := live
               _minLiveGTID := s._nextLiveGTID
               _minUnappliedGTID := s._nextLiveGTID }
    else
      let m := live.min' (Finset.card_pos.mp (Nat.pos_of_ne_zero h))
      { s with _liveGTIDs := live
               _minLiveGTID := m
               _minUnappliedGTID := m }
  else
    { s with _liveGTIDs := live }

/-- The `dassert`s of `GTIDManager::noteGTIDAdded`:
`GTID::cmp(_nextLiveGTID, _minLiveGTID) == 0` and
`GTID::cmp(_nextLiveGTID, gtid) <= 0`. -/
abbrev noteGTIDAddedPre (s : GTIDManagerState) (gtid : GTID) : Prop :=
  GTID.cmp s._nextLiveGTID s._minLiveGTID = 0 ∧ GTID.cmp s._nextLiveGTID gtid ≤ 0

/-- `GTIDManager::noteGTIDAdded` — `_nextLiveGTID = gtid; _minLiveGTID = gtid`. -/
def noteGTIDAdded (s : GTIDManagerState) (gtid : GTID) : GTIDManagerState :=
  { s with _nextLiveGTID := gtid, _minLiveGTID := gtid }

/-- The `dassert`s of `GTIDManager::noteApplyingGTID`:
`GTID::cmp(gtid, _minUnappliedGTID) > 0` and
`GTID::cmp(gtid, _nextUnappliedGTID) >= 0`. -/
abbrev noteApplyingGTIDPre (s : GTIDManagerState) (gtid : GTID) : Prop :=
  0 < GTID.cmp gtid s._minUnappliedGTID ∧ 0 ≤ GTID.cmp gtid s._nextUnappliedGTID

/-- `GTIDManager::noteApplyingGTID` — if `_unappliedGTIDs` is empty, set
`_minUnappliedGTID = gtid`; insert `gtid`; `_nextUnappliedGTID = gtid.inc()`. -/
def noteApplyingGTID (s : GTIDManagerState) (gtid : GTID) : GTIDManagerState :=
  { s with
    _minUnappliedGTID := if s._unappliedGTIDs.card = 0 then gtid else s._minUnappliedGTID
    _unappliedGTIDs := insert gtid s._unappliedGTIDs
    _nextUnappliedGTID := gtid.inc }

/-- The `dassert`s of `GTIDManager::noteGTIDApplied`:
`GTID::cmp(gtid, _minUnappliedGTID) >= 0` and `_unappliedGTIDs.size() > 0`. -/
abbrev noteGTIDAppliedPre (s : GTIDManagerState) (gtid : GTID) : Prop :=
  0 ≤ GTID.cmp gtid s._minUnappliedGTID ∧ 0 < s._unappliedGTIDs.card

/-- `GTIDManager::noteGTIDApplied` — the mirror of `noteLiveGTIDDone` on the
unapplied set (it does not touch `_minLiveGTID`). -/
def noteGTIDApplied (s : GTIDManagerState) (gtid : GTID) : GTIDManagerState :=
  let un := s._unappliedGTIDs.erase gtid
  if GTID.cmp s._minUnappliedGTID gtid = 0 then
    if h : un.card = 0 then
      { s with _unappliedGTIDs := un, _minUnappliedGTID := s._nextUnappliedGTID }
    else
      { s with _unappliedGTIDs := un
               _minUnappliedGTID := un.min' (Finset.card_pos.mp (Nat.pos_of_ne_zero h)) }
  else
    { s with _unappliedGTIDs := un }

/-- The `dassert` of `GTIDManager::resetManager`: `_liveGTIDs.size() == 0`. -/
abbrev resetManagerPre (s : GTIDManagerState) : Prop := s._liveGTIDs.card = 0

/-- `GTIDManager::resetManager(GTID lastGTID)` —
`_nextLiveGTID = lastGTID; _nextLiveGTID.inc_primary(); _minLiveGTID = _nextLiveGTID`.
The unapplied-side members are untouched (the source has a TODO about them). -/
def resetManager (s : GTIDManagerState) (lastGTID : GTID) : GTIDManagerState :=
  { s with _nextLiveGTID := lastGTID.inc_primary, _minLiveGTID := lastGTID.inc_primary }

/-- One mutating `GTIDManager` call (the `getMins` reader is pure). -/
inductive GTIDOp where
  | getForPrimary : GTIDOp
  | noteLiveDone : GTID → GTIDOp
  | noteAdded : GTID → GTIDOp
  | noteApplying : GTID → GTIDOp
  | noteApplied : GTID → GTIDOp
  | reset : GTID → GTIDOp
deriving DecidableEq

/-- The state transformation of one `GTIDManager` call. -/
def applyOp (s : GTIDManagerState) : GTIDOp → GTIDManagerState
  | .getForPrimary => (getGTIDForPrimary s).2
  | .noteLiveDone g => noteLiveGTIDDone s g
  | .noteAdded g => noteGTIDAdded s g
  | .noteApplying g => noteApplyingGTID s g
  | .noteApplied g => noteGTIDApplied s g
  | .reset g => resetManager s g

/-- Precondition of one call: its `dassert`s, plus the `uint64_t` range
constraint on the caller-supplied GTID. -/
def opPre (s : GTIDManagerState) : GTIDOp → Prop
  | .getForPrimary => True
  | .noteLiveDone g => g.Wellformed ∧ noteLiveGTIDDonePre s g
  | .noteAdded g => g.Wellformed ∧ noteGTIDAddedPre s g
  | .noteApplying g => g.Wellformed ∧ noteApplyingGTIDPre s g
  | .noteApplied g => g.Wellformed ∧ noteGTIDAppliedPre s g
  | .reset g => g.Wellformed ∧ resetManagerPre s

/-- `opPre` strengthened with a no-overflow side condition: `getGTIDForPrimary`
is only invoked while incrementing `_nextLiveGTID` cannot wrap its 64-bit
`_GTSeqNo`. -/
def opPreNW (s : GTIDManagerState) : GTIDOp → Prop
  | .getForPrimary => s._nextLiveGTID.GTSeqNo + 1 < u64
  | op => opPre s op

instance (s : GTIDManagerState) : (op : GTIDOp) → Decidable (opPre s op)
  | .getForPrimary => isTrue True.intro
  | .noteLiveDone _ => inferInstanceAs (Decidable (_ ∧ _))
  | .noteAdded _ => inferInstanceAs (Decidable (_ ∧ _))
  | .noteApplying _ => inferInstanceAs (Decidable (_ ∧ _))
  | .noteApplied _ => inferInstanceAs (Decidable (_ ∧ _))
  | .reset _ => inferInstanceAs (Decidable (_ ∧ _))

instance (s : GTIDManagerState) : (op : GTIDOp) → Decidable (opPreNW s op)
  | .getForPrimary => inferInstanceAs (Decidable (_ < _))
  | .noteLiveDone g => inferInstanceAs (Decidable (opPre s (.noteLiveDone g)))
  | .noteAdded g => inferInstanceAs (Decidable (opPre s (.noteAdded g)))
  | .noteApplying g => inferInstanceAs (Decidable (opPre s (.noteApplying g)))
  | .noteApplied g => inferInstanceAs (Decidable (opPre s (.noteApplied g)))
  | .reset g => inferInstanceAs (Decidable (opPre s (.reset g)))

/-- All `dassert`s hold along a call sequence run from `s`. -/
def TraceOK (s : GTIDManagerState) : List GTIDOp → Prop
  | [] => True
  | op :: ops => opPre s op ∧ TraceOK (applyOp s op) ops

/-- All `dassert`s and the no-overflow side conditions hold along a call
sequence run from `s`. -/
def TraceOKNW (s : GTIDManagerState) : List GTIDOp → Prop
  | [] => True
  | op :: ops => opPreNW s op ∧ TraceOKNW (applyOp s op) ops

instance instDecTraceOK : (ops : List GTIDOp) → (s : GTIDManagerState) →
    Decidable (TraceOK s ops)
  | [], _ => isTrue True.intro
  | op :: ops, s => @instDecidableAnd _ _ inferInstance (instDecTraceOK ops (applyOp s op))

instance instDecTraceOKNW : (ops : List GTIDOp) → (s : GTIDManagerState) →
    Decidable (TraceOKNW s ops)
  | [], _ => isTrue True.intro
  | op :: ops, s => @instDecidableAnd _ _ inferInstance (instDecTraceOKNW ops (applyOp s op))

/-- Whether a call is `resetManager`. -/
def isReset : GTIDOp → Bool
  | .reset _ => true
  | _ => false

/-- The sequence contains no `resetManager` call. -/
abbrev NoReset (ops : List GTIDOp) : Prop := ∀ op ∈ ops, isReset op = false

/-- The GTIDs handed out by the `getGTIDForPrimary` calls of a sequence,
in call order. -/
def runAllocs (s : GTIDManagerState) : List GTIDOp → List GTID
  | [] => []
  | .getForPrimary :: ops =>
      (getGTIDForPrimary s).1 :: runAllocs (applyOp s .getForPrimary) ops
  | op :: ops => runAllocs (applyOp s op) ops

/-- The successive values of `_minLiveGTID` along a call sequence
(including the initial one). -/
def runMins (s : GTIDManagerState) : List GTIDOp → List GTID
  | [] => [s._minLiveGTID]
  | op :: ops => s._minLiveGTID :: runMins (applyOp s op) ops

/-- States reachable from the constructor through mutating calls whose
`dassert`s hold. -/
inductive Reachable : GTIDManagerState → Prop where
  | init (lastGTID : GTID) (h : lastGTID.Wellformed) : Reachable (GTIDManagerInit lastGTID)
  | step (s : GTIDManagerState) (op : GTIDOp) (hs : Reachable s) (hp : opPre s op) :
      Reachable (applyOp s op)

/-- States reachable from the constructor through mutating calls whose
`dassert`s hold, with no 64-bit overflow at `getGTIDForPrimary`. -/
inductive ReachableNW : GTIDManagerState → Prop where
  | init (lastGTID : GTID) (h : lastGTID.Wellformed) : ReachableNW (GTIDManagerInit lastGTID)
  | step (s : GTIDManagerState) (op : GTIDOp) (hs : ReachableNW s) (hp : opPreNW s op) :
      ReachableNW (applyOp s op)

/-- States reachable from the constructor using only the primary-side calls
`getGTIDForPrimary` and `noteLiveGTIDDone`. -/
inductive ReachablePrimary : GTIDManagerState → Prop where
  | init (lastGTID : GTID) (h : lastGTID.Wellformed) :
      ReachablePrimary (GTIDManagerInit lastGTID)
  | stepGet (s : GTIDManagerState) (hs : ReachablePrimary s) :
      ReachablePrimary (applyOp s .getForPrimary)
  | stepDone (s : GTIDManagerState) (g : GTID) (hs : ReachablePrimary s)
      (hp : opPre s (.noteLiveDone g)) :
      ReachablePrimary (applyOp s (.noteLiveDone g))

/-- The live-side state invariant stated by the specification:
`_minLiveGTID ≤` every live GTID `≤ _nextLiveGTID`, and when `_liveGTIDs` is
empty, `_minLiveGTID = _nextLiveGTID`. -/
abbrev liveGTIDInvariant (s : GTIDManagerState) : Prop :=
  (∀ g ∈ s._liveGTIDs, s._minLiveGTID ≤ g) ∧
  (∀ g ∈ s._liveGTIDs, g ≤ s._nextLiveGTID) ∧
  (s._liveGTIDs = ∅ → s._minLiveGTID = s._nextLiveGTID)

/-- The inductive strengthening of `liveGTIDInvariant` actually maintained by
the code: elements are strictly below `_nextLiveGTID` and `_minLiveGTID` is a
member of a non-empty `_liveGTIDs`. -/
def liveGTIDInvariantStrong (s : GTIDManagerState) : Prop :=
  (∀ g ∈ s._liveGTIDs, s._minLiveGTID ≤ g) ∧
  (∀ g ∈ s._liveGTIDs, g < s._nextLiveGTID) ∧
  (s._liveGTIDs = ∅ → s._minLiveGTID = s._nextLiveGTID) ∧
  (s._liveGTIDs.Nonempty → s._minLiveGTID ∈ s._liveGTIDs)

/-- The part of a collection's state that `nIndexesBeingBuilt`, `nIndexes` and
`idx` read: the `_indexes` vector (elements abstracted to a type parameter,
as `idx` only selects them), the committed count `_nIndexes` (an `int`), and
the `_indexBuildInProgress` flag. -/
structure CollectionBase (Idx : Type) where
  _indexes : List Idx
  _nIndexes : Int
  _indexBuildInProgress : Bool

namespace Collection

/-- `Collection::NIndexesMax` — `static const int NIndexesMax = 64`. -/
def NIndexesMax : Int := 64

/-- `Collection::NO_LOCKTREE` — skip acquiring locktree row locks. -/
def NO_LOCKTREE : Nat := 1

/-- `Collection::NO_UNIQUE_CHECKS` — skip uniqueness checks on all keys. -/
def NO_UNIQUE_CHECKS : Nat := 2

/-- `Collection::KEYS_UNAFFECTED_HINT` — an update did not update secondary
indexes. -/
def KEYS_UNAFFECTED_HINT : Nat := 4

/-- `Collection::NO_PK_UNIQUE_CHECKS` — skip uniqueness checks only on the
primary key. -/
def NO_PK_UNIQUE_CHECKS : Nat := 8

end Collection

namespace CollectionBase

/-- The `verify` checks inside `CollectionBase::nIndexesBeingBuilt`, one per
branch: `_nIndexes + 1 == _indexes.size()` during a background build, else
`_nIndexes == _indexes.size()`. -/
abbrev nIndexesConsistent {Idx : Type} (c : CollectionBase Idx) : Prop :=
  (c._indexBuildInProgress = true → c._nIndexes + 1 = (c._indexes.length : Int)) ∧
  (c._indexBuildInProgress = false → c._nIndexes = (c._indexes.length : Int))

/-- `CollectionBase::nIndexesBeingBuilt` — returns `_indexes.size()`
(after the `verify` checks pass). -/
def nIndexesBeingBuilt {Idx : Type} (c : CollectionBase Idx) : Int :=
  (c._indexes.length : Int)

/-- `CollectionBase::nIndexes` (accessor) — returns `_nIndexes`. -/
def nIndexes {Idx : Type} (c : CollectionBase Idx) : Int := c._nIndexes

/-- `CollectionBase::idx(int idxNo)` — guarded element access:
`verify(idxNo < NIndexesMax)`, `verify(idxNo >= 0 && idxNo < _indexes.size())`,
then `*_indexes[idxNo]`. A failing `verify` is modelled as `none`. -/
def idx {Idx : Type} (c : CollectionBase Idx) (idxNo : Int) : Option Idx :=
  if idxNo < Collection.NIndexesMax then
    if 0 ≤ idxNo ∧ idxNo < (c._indexes.length : Int) then
      c._indexes[idxNo.toNat]?
    else none
  else none

end CollectionBase

/-! ### Theorems: the GTID order and `GTID::cmp` -/

theorem GTID.le_def (a b : GTID) : a ≤ b ↔ (a.primarySeqNo < b.primarySeqNo ∨
    (a.primarySeqNo = b.primarySeqNo ∧ a.GTSeqNo ≤ b.GTSeqNo)) := Iff.rfl

theorem GTID.lt_def (a b : GTID) : a < b ↔ (a.primarySeqNo < b.primarySeqNo ∨
    (a.primarySeqNo = b.primarySeqNo ∧ a.GTSeqNo < b.GTSeqNo)) := by
  rw [lt_iff_le_not_le, le_def, le_def]
  constructor
  · rintro ⟨h | ⟨h1, h2⟩, hn⟩
    · exact Or.inl h
    · refine Or.inr ⟨h1, lt_of_le_of_ne h2 fun hc => hn (Or.inr ⟨h1.symm, hc ▸ le_refl _⟩)⟩
  · rintro (h | ⟨h1, h2⟩)
    · exact ⟨Or.inl h, by push_neg; exact ⟨by omega, fun _ => by omega⟩⟩
    · exact ⟨Or.inr ⟨h1, h2.le⟩, by push_neg; exact ⟨by omega, fun _ => by omega⟩⟩

theorem GTID.cmp_cases (a b : GTID) :
    (a < b ∧ cmp a b = -1) ∨ (a = b ∧ cmp a b = 0) ∨ (b < a ∧ cmp a b = 1) := by
  rcases Nat.lt_trichotomy a.primarySeqNo b.primarySeqNo with hp | hp | hp
  · refine Or.inl ⟨(lt_def a b).mpr (Or.inl hp), ?_⟩
    simp only [cmp]
    rw [if_pos (by omega), if_pos hp]
  · rcases Nat.lt_trichotomy a.GTSeqNo b.GTSeqNo with hs | hs | hs
    · refine Or.inl ⟨(lt_def a b).mpr (Or.inr ⟨hp, hs⟩), ?_⟩
      simp only [cmp]
      rw [if_neg (by omega), if_neg (by omega), if_pos hs]
    · exact Or.inr (Or.inl ⟨GTID.ext hp hs, by simp only [cmp]; rw [if_neg (by omega), if_pos hs]⟩)
    · refine Or.inr (Or.inr ⟨(lt_def b a).mpr (Or.inr ⟨hp.symm, hs⟩), ?_⟩)
      simp only [cmp]
      rw [if_neg (by omega), if_neg (by omega), if_neg (by omega)]
  · refine Or.inr (Or.inr ⟨(lt_def b a).mpr (Or.inl hp), ?_⟩)
    simp only [cmp]
    rw [if_pos (by omega), if_neg (by omega)]

theorem GTID.cmp_lt_zero_iff (a b : GTID) : cmp a b < 0 ↔ a < b := by
  rcases cmp_cases a b with ⟨h, hc⟩ | ⟨h, hc⟩ | ⟨h, hc⟩
  · rw [hc]
    exact ⟨fun _ => h, fun _ => by norm_num⟩
  · subst h
    rw [hc]
    exact ⟨fun h0 => absurd h0 (by norm_num), fun h0 => absurd h0 (lt_irrefl a)⟩
  · rw [hc]
    exact ⟨fun h0 => absurd h0 (by norm_num), fun h0 => absurd (lt_trans h h0) (lt_irrefl b)⟩

theorem GTID.cmp_eq_zero_iff (a b : GTID) : cmp a b = 0 ↔ a = b := by
  rcases cmp_cases a b with ⟨h, hc⟩ | ⟨h, hc⟩ | ⟨h, hc⟩
  · rw [hc]
    exact ⟨fun h0 => absurd h0 (by norm_num), fun h0 => absurd (h0 ▸ h) (lt_irrefl b)⟩
  · rw [hc]
    exact ⟨fun _ => h, fun _ => rfl⟩
  · rw [hc]
    exact ⟨fun h0 => absurd h0 (by norm_num), fun h0 => absurd (h0 ▸ h) (lt_irrefl b)⟩

theorem GTID.cmp_le_zero_iff (a b : GTID) : cmp a b ≤ 0 ↔ a ≤ b := by
  rw [le_iff_lt_or_eq, cmp_lt_zero_iff, cmp_eq_zero_iff, ← le_iff_lt_or_eq]

theorem GTID.zero_le_cmp_iff (a b : GTID) : 0 ≤ cmp a b ↔ b ≤ a := by
  rcases cmp_cases a b with ⟨h, hc⟩ | ⟨h, hc⟩ | ⟨h, hc⟩
  · rw [hc]
    exact ⟨fun h0 => absurd h0 (by norm_num), fun h0 => absurd h0 (not_le.mpr h)⟩
  · subst h
    rw [hc]
    exact ⟨fun _ => le_refl a, fun _ => le_refl 0⟩
  · rw [hc]
    exact ⟨fun _ => h.le, fun _ => by norm_num⟩

theorem GTID.zero_lt_cmp_iff (a b : GTID) : 0 < cmp a b ↔ b < a := by
  rcases cmp_cases a b with ⟨h, hc⟩ | ⟨h, hc⟩ | ⟨h, hc⟩
  · rw [hc]
    exact ⟨fun h0 => absurd h0 (by norm_num), fun h0 => absurd (lt_trans h h0) (lt_irrefl a)⟩
  · subst h
    rw [hc]
    exact ⟨fun h0 => absurd h0 (by norm_num), fun h0 => absurd h0 (lt_irrefl a)⟩
  · rw [hc]
    exact ⟨fun _ => h, fun _ => by norm_num⟩

/-! ### Theorems: the binary codec -/

theorem u64_eq_pow : u64 = 256 ^ 8 := by norm_num [u64]

theorem beBytesAux_length : ∀ (n x : Nat), (beBytesAux n x).length = n := by
  intro n
  induction n with
  | zero => intro x; rfl
  | succ n ih => intro x; simp [beBytesAux, ih]

theorem fromBEBytes_beBytesAux : ∀ (n x : Nat), x < 256 ^ n →
    fromBEBytes (beBytesAux n x) = x := by
  intro n
  induction n with
  | zero =>
    intro x h
    have hx : x = 0 := by omega
    subst hx
    rfl
  | succ n ih =>
    intro x h
    have hE : 0 < 256 ^ n := pow_pos (by norm_num) n
    simp only [beBytesAux, fromBEBytes, beBytesAux_length]
    rw [ih (x % 256 ^ n) (Nat.mod_lt _ hE)]
    rw [Nat.mul_comm (x / 256 ^ n) (256 ^ n)]
    exact Nat.div_add_mod x (256 ^ n)

theorem memcmpBytes_beBytesAux : ∀ (n x y : Nat), x < 256 ^ n → y < 256 ^ n →
    memcmpBytes (beBytesAux n x) (beBytesAux n y) = natCmpInt x y := by
  intro n
  induction n with
  | zero =>
    intro x y hx hy
    have hx0 : x = 0 := by omega
    have hy0 : y = 0 := by omega
    subst hx0; subst hy0
    rfl
  | succ n ih =>
    intro x y hx hy
    have hE : 0 < 256 ^ n := pow_pos (by norm_num) n
    have hdx : 256 ^ n * (x / 256 ^ n) + x % 256 ^ n = x := Nat.div_add_mod x (256 ^ n)
    have hdy : 256 ^ n * (y / 256 ^ n) + y % 256 ^ n = y := Nat.div_add_mod y (256 ^ n)
    simp only [beBytesAux, memcmpBytes]
    rcases Nat.lt_trichotomy (x / 256 ^ n) (y / 256 ^ n) with hq | hq | hq
    · have hxy : x < y := by
        calc x < 256 ^ n * (x / 256 ^ n) + 256 ^ n := by omega
          _ = 256 ^ n * (x / 256 ^ n + 1) := by ring
          _ ≤ 256 ^ n * (y / 256 ^ n) := Nat.mul_le_mul_left _ (by omega)
          _ ≤ y := by omega
      rw [if_pos hq, natCmpInt, if_pos hxy]
    · rw [if_neg (by omega), if_neg (by omega),
        ih (x % 256 ^ n) (y % 256 ^ n) (Nat.mod_lt _ hE) (Nat.mod_lt _ hE)]
      rw [hq] at hdx
      generalize hT : 256 ^ n * (y / 256 ^ n) = T at hdx hdy
      generalize hrx : x % 256 ^ n = rx at hdx
      generalize hry : y % 256 ^ n = ry at hdy
      unfold natCmpInt
      split_ifs <;> omega
    · have hxy : y < x := by
        calc y < 256 ^ n * (y / 256 ^ n) + 256 ^ n := by omega
          _ = 256 ^ n * (y / 256 ^ n + 1) := by ring
          _ ≤ 256 ^ n * (x / 256 ^ n) := Nat.mul_le_mul_left _ (by omega)
          _ ≤ x := by omega
      rw [if_neg (by omega), if_pos hq, natCmpInt, if_neg (by omega), if_pos hxy]

theorem memcmpBytes_append : ∀ (A A' B B' : List Nat), A.length = A'.length →
    memcmpBytes (A ++ B) (A' ++ B') =
      if memcmpBytes A A' = 0 then memcmpBytes B B' else memcmpBytes A A' := by
  intro A
  induction A with
  | nil =>
    intro A' B B' h
    have hA' : A' = [] := List.eq_nil_of_length_eq_zero h.symm
    subst hA'
    simp [memcmpBytes]
  | cons a as ih =>
    intro A' B B' h
    cases A' with
    | nil => simp at h
    | cons a' as' =>
      simp only [List.cons_append, memcmpBytes]
      rcases Nat.lt_trichotomy a a' with hc | hc | hc
      · rw [if_pos hc, if_pos hc, if_neg (show ¬(-1 : Int) = 0 by norm_num)]
      · subst hc
        rw [if_neg (lt_irrefl a), if_neg (lt_irrefl a), if_neg (lt_irrefl a),
          if_neg (lt_irrefl a)]
        exact ih as' B B' (by simpa using h)
      · rw [if_neg (Nat.lt_asymm hc), if_pos hc, if_neg (Nat.lt_asymm hc), if_pos hc,
          if_neg (show ¬(1 : Int) = 0 by norm_num)]

theorem GTID.serializeBinaryData_length (g : GTID) :
    g.serializeBinaryData.length = 16 := by
  simp [GTID.serializeBinaryData, beBytesAux_length]

theorem GTID.ofBinData_serializeBinaryData (g : GTID) (h : g.Wellformed) :
    GTID.ofBinData g.serializeBinaryData = g := by
  obtain ⟨hp, hs⟩ := h
  rw [u64_eq_pow] at hp hs
  have h8 : (beBytesAux 8 g.primarySeqNo).length = 8 := beBytesAux_length 8 _
  unfold GTID.ofBinData GTID.serializeBinaryData
  rw [List.take_left' h8, List.drop_left' h8, List.take_of_length_le (by
    rw [beBytesAux_length])]
  rw [fromBEBytes_beBytesAux 8 _ hp, fromBEBytes_beBytesAux 8 _ hs]

theorem natCmpInt_eq_neg_one {x y : Nat} (h : x < y) : natCmpInt x y = -1 := by
  unfold natCmpInt
  rw [if_pos h]

theorem natCmpInt_eq_zero (x : Nat) : natCmpInt x x = 0 := by
  unfold natCmpInt
  rw [if_neg (lt_irrefl x), if_neg (lt_irrefl x)]

theorem natCmpInt_eq_one {x y : Nat} (h : y < x) : natCmpInt x y = 1 := by
  unfold natCmpInt
  rw [if_neg (Nat.lt_asymm h), if_pos h]

theorem GTID.memcmp_serializeBinaryData (g1 g2 : GTID)
    (h1 : g1.Wellformed) (h2 : g2.Wellformed) :
    memcmpBytes g1.serializeBinaryData g2.serializeBinaryData = GTID.cmp g1 g2 := by
  obtain ⟨hp1, hs1⟩ := h1
  obtain ⟨hp2, hs2⟩ := h2
  rw [u64_eq_pow] at hp1 hs1 hp2 hs2
  unfold GTID.serializeBinaryData
  rw [memcmpBytes_append _ _ _ _ (by rw [beBytesAux_length, beBytesAux_length])]
  rw [memcmpBytes_beBytesAux 8 _ _ hp1 hp2, memcmpBytes_beBytesAux 8 _ _ hs1 hs2]
  unfold GTID.cmp
  rcases Nat.lt_trichotomy g1.primarySeqNo g2.primarySeqNo with hp | hp | hp
  · rw [natCmpInt_eq_neg_one hp, if_neg (show ¬(-1 : Int) = 0 by norm_num),
      if_pos (show g1.primarySeqNo ≠ g2.primarySeqNo by omega), if_pos hp]
  · rw [hp, natCmpInt_eq_zero, if_pos (show (0 : Int) = 0 from rfl),
      if_neg (show ¬g2.primarySeqNo ≠ g2.primarySeqNo from fun hne => hne rfl)]
    rcases Nat.lt_trichotomy g1.GTSeqNo g2.GTSeqNo with hs | hs | hs
    · rw [natCmpInt_eq_neg_one hs, if_neg (show ¬g1.GTSeqNo = g2.GTSeqNo by omega), if_pos hs]
    · rw [hs, natCmpInt_eq_zero, if_pos (show g2.GTSeqNo = g2.GTSeqNo from rfl)]
    · rw [natCmpInt_eq_one hs, if_neg (show ¬g1.GTSeqNo = g2.GTSeqNo by omega),
        if_neg (Nat.lt_asymm hs)]
  · rw [natCmpInt_eq_one hp, if_neg (show ¬(1 : Int) = 0 by norm_num),
      if_pos (show g1.primarySeqNo ≠ g2.primarySeqNo by omega), if_neg (Nat.lt_asymm hp)]

/-! ### Claim theorems: codec, comparison, collection constants and accessors -/

/-- C1: the GTID binary codec is a 16-byte, order-preserving round-trip:
`GTIDBinarySize()` is 16; for every (64-bit representable) GTID `g`,
deserializing the 16 bytes written by `serializeBinaryData` yields `g` back;
and byte-wise lexicographic comparison (`memcmp`) of two encodings agrees with
`GTID::cmp`, hence with the lexicographic-on-pair numeric order. -/
theorem gtid_binary_codec_roundtrip_and_order :
    GTID.GTIDBinarySize = 16 ∧
    (∀ g : GTID, g.Wellformed →
      g.serializeBinaryData.length = GTID.GTIDBinarySize ∧
      GTID.ofBinData g.serializeBinaryData = g) ∧
    (∀ g1 g2 : GTID, g1.Wellformed → g2.Wellformed →
      memcmpBytes g1.serializeBinaryData g2.serializeBinaryData = GTID.cmp g1 g2 ∧
      (memcmpBytes g1.serializeBinaryData g2.serializeBinaryData < 0 ↔ g1 < g2) ∧
      (memcmpBytes g1.serializeBinaryData g2.serializeBinaryData = 0 ↔ g1 = g2)) := by
  refine ⟨rfl, fun g hg => ⟨by rw [GTID.serializeBinaryData_length]; rfl,
    GTID.ofBinData_serializeBinaryData g hg⟩, fun g1 g2 h1 h2 => ?_⟩
  have hm := GTID.memcmp_serializeBinaryData g1 g2 h1 h2
  refine ⟨hm, ?_, ?_⟩
  · rw [hm]
    exact GTID.cmp_lt_zero_iff g1 g2
  · rw [hm]
    exact GTID.cmp_eq_zero_iff g1 g2

/-- Witness for C1 at the spec's example `(1,2)` (S7), against `(1,3)`. -/
theorem gtid_binary_codec_roundtrip_and_order_witness :
    GTID.ofBinData (GTID.serializeBinaryData ⟨1, 2⟩) = (⟨1, 2⟩ : GTID) ∧
    memcmpBytes (GTID.serializeBinaryData ⟨1, 2⟩) (GTID.serializeBinaryData ⟨1, 3⟩) =
      GTID.cmp ⟨1, 2⟩ ⟨1, 3⟩ :=
  ⟨(gtid_binary_codec_roundtrip_and_order.2.1 ⟨1, 2⟩ (by decide)).2,
   (gtid_binary_codec_roundtrip_and_order.2.2 ⟨1, 2⟩ ⟨1, 3⟩ (by decide) (by decide)).1⟩

/-- C7: `GTID::cmp` implements the lexicographic total order on the pair
`(primarySeqNo, GTSeqNo)`: negative iff the first is lexicographically smaller,
zero iff both components agree, positive iff the second is smaller. -/
theorem gtid_cmp_lexicographic (a b : GTID) :
    (GTID.cmp a b < 0 ↔ (a.primarySeqNo < b.primarySeqNo ∨
      (a.primarySeqNo = b.primarySeqNo ∧ a.GTSeqNo < b.GTSeqNo))) ∧
    (GTID.cmp a b = 0 ↔ (a.primarySeqNo = b.primarySeqNo ∧ a.GTSeqNo = b.GTSeqNo)) ∧
    (0 < GTID.cmp a b ↔ (b.primarySeqNo < a.primarySeqNo ∨
      (b.primarySeqNo = a.primarySeqNo ∧ b.GTSeqNo < a.GTSeqNo))) := by
  refine ⟨?_, ?_, ?_⟩
  · rw [GTID.cmp_lt_zero_iff, GTID.lt_def]
  · rw [GTID.cmp_eq_zero_iff, GTID.ext_iff]
  · rw [GTID.zero_lt_cmp_iff, GTID.lt_def]

/-- C9: the write-operation flag bitset assigns exactly bit 0 to `NO_LOCKTREE`,
bit 1 to `NO_UNIQUE_CHECKS`, bit 2 to `KEYS_UNAFFECTED_HINT` and bit 3 to
`NO_PK_UNIQUE_CHECKS`. -/
theorem collection_write_flag_bits :
    Collection.NO_LOCKTREE = 2 ^ 0 ∧ Collection.NO_UNIQUE_CHECKS = 2 ^ 1 ∧
    Collection.KEYS_UNAFFECTED_HINT = 2 ^ 2 ∧ Collection.NO_PK_UNIQUE_CHECKS = 2 ^ 3 :=
  ⟨rfl, rfl, rfl, rfl⟩

/-- C8: whenever the `verify` checks of `nIndexesBeingBuilt` pass, it returns
`_indexes.size()`; `_nIndexes` equals `_indexes.size()` with no background
build in progress and `_indexes.size() − 1` during one; equivalently
`nIndexesBeingBuilt() == nIndexes() + 1` exactly during a background build and
`== nIndexes()` otherwise. -/
theorem nIndexesBeingBuilt_spec {Idx : Type} (c : CollectionBase Idx)
    (h : CollectionBase.nIndexesConsistent c) :
    CollectionBase.nIndexesBeingBuilt c = (c._indexes.length : Int) ∧
    (c._indexBuildInProgress = true →
      CollectionBase.nIndexes c = (c._indexes.length : Int) - 1 ∧
      CollectionBase.nIndexesBeingBuilt c = CollectionBase.nIndexes c + 1) ∧
    (c._indexBuildInProgress = false →
      CollectionBase.nIndexes c = (c._indexes.length : Int) ∧
      CollectionBase.nIndexesBeingBuilt c = CollectionBase.nIndexes c) := by
  obtain ⟨hbuild, hnobuild⟩ := h
  refine ⟨rfl, fun hb => ?_, fun hb => ?_⟩
  · have := hbuild hb
    unfold CollectionBase.nIndexes CollectionBase.nIndexesBeingBuilt
    omega
  · have := hnobuild hb
    unfold CollectionBase.nIndexes CollectionBase.nIndexesBeingBuilt
    omega

/-- Witness for C8: a collection with two committed indexes and no build,
and one with two indexes of which one is being background-built. -/
theorem nIndexesBeingBuilt_spec_witness :
    CollectionBase.nIndexesBeingBuilt (⟨[0, 1], 2, false⟩ : CollectionBase Nat) =
      CollectionBase.nIndexes (⟨[0, 1], 2, false⟩ : CollectionBase Nat) ∧
    CollectionBase.nIndexesBeingBuilt (⟨[0, 1], 1, true⟩ : CollectionBase Nat) =
      CollectionBase.nIndexes (⟨[0, 1], 1, true⟩ : CollectionBase Nat) + 1 :=
  ⟨((nIndexesBeingBuilt_spec (⟨[0, 1], 2, false⟩ : CollectionBase Nat)
      ⟨fun hb => by simp at hb, fun _ => by decide⟩).2.2 rfl).2,
   ((nIndexesBeingBuilt_spec (⟨[0, 1], 1, true⟩ : CollectionBase Nat)
      ⟨fun _ => by decide, fun hb => by simp at hb⟩).2.1 rfl).2⟩

/-- C10: `CollectionBase::idx(idxNo)` is safe: whenever
`0 ≤ idxNo < _indexes.size()` and the vector respects `NIndexesMax`, both
`verify` guards pass and `idx` returns exactly the element at position
`idxNo`. -/
theorem collectionBase_idx_safe {Idx : Type} (c : CollectionBase Idx) (idxNo : Int)
    (hmax : (c._indexes.length : Int) ≤ Collection.NIndexesMax)
    (h0 : 0 ≤ idxNo) (hlt : idxNo < (c._indexes.length : Int)) :
    CollectionBase.idx c idxNo = c._indexes[idxNo.toNat]? ∧
    (CollectionBase.idx c idxNo).isSome = true := by
  have hni : idxNo < Collection.NIndexesMax := lt_of_lt_of_le hlt hmax
  unfold CollectionBase.idx
  rw [if_pos hni, if_pos ⟨h0, hlt⟩]
  refine ⟨rfl, ?_⟩
  have hn : idxNo.toNat < c._indexes.length := by omega
  rw [List.getElem?_eq_getElem hn]
  rfl

/-- Witness for C10 on a concrete two-element index vector. -/
theorem collectionBase_idx_safe_witness :
    CollectionBase.idx (⟨[7, 8], 2, false⟩ : CollectionBase Nat) 1 = some 8 := by
  rw [(collectionBase_idx_safe (⟨[7, 8], 2, false⟩ : CollectionBase Nat) 1
    (by decide) (by decide) (by decide)).1]
  rfl

/-! ### Claim theorems: GTIDManager functional behavior -/

/-- C3: `getGTIDForPrimary` returns the current `_nextLiveGTID`, inserts it
into `_liveGTIDs`, and advances `_nextLiveGTID` by incrementing its `GTSeqNo`
(a wrapping 64-bit increment), leaving all other fields unchanged; for a
manager constructed from `GTID(p,s)` (no overflow), the first call returns
`(p, s+1)` and the second `(p, s+2)`. -/
theorem getGTIDForPrimary_spec :
    (∀ s : GTIDManagerState,
      (getGTIDForPrimary s).1 = s._nextLiveGTID ∧
      (getGTIDForPrimary s).2._liveGTIDs = insert s._nextLiveGTID s._liveGTIDs ∧
      (getGTIDForPrimary s).2._nextLiveGTID =
        ⟨s._nextLiveGTID.primarySeqNo, (s._nextLiveGTID.GTSeqNo + 1) % u64⟩ ∧
      (getGTIDForPrimary s).2._minLiveGTID = s._minLiveGTID ∧
      (getGTIDForPrimary s).2._minUnappliedGTID = s._minUnappliedGTID ∧
      (getGTIDForPrimary s).2._nextUnappliedGTID = s._nextUnappliedGTID ∧
      (getGTIDForPrimary s).2._unappliedGTIDs = s._unappliedGTIDs) ∧
    (∀ p q : Nat, q + 2 < u64 →
      (getGTIDForPrimary (GTIDManagerInit ⟨p, q⟩)).1 = ⟨p, q + 1⟩ ∧
      (getGTIDForPrimary ((getGTIDForPrimary (GTIDManagerInit ⟨p, q⟩)).2)).1 =
        ⟨p, q + 2⟩) := by
  refine ⟨fun s => ⟨rfl, rfl, rfl, rfl, rfl, rfl, rfl⟩, fun p q h => ?_⟩
  have h1 : (q + 1) % u64 = q + 1 := Nat.mod_eq_of_lt (by omega)
  have h2 : (q + 1 + 1) % u64 = q + 2 := Nat.mod_eq_of_lt (by omega)
  constructor
  · show GTID.inc ⟨p, q⟩ = _
    unfold GTID.inc
    rw [h1]
  · show GTID.inc (GTID.inc ⟨p, q⟩) = _
    unfold GTID.inc
    rw [h1, h2]

/-- Witness for C3 at the spec's S6 example: `new(GTID(5,7))`, first call
`(5,8)`, second call `(5,9)`. -/
theorem getGTIDForPrimary_spec_witness :
    (getGTIDForPrimary (GTIDManagerInit ⟨5, 7⟩)).1 = (⟨5, 8⟩ : GTID) ∧
    (getGTIDForPrimary ((getGTIDForPrimary (GTIDManagerInit ⟨5, 7⟩)).2)).1 =
      (⟨5, 9⟩ : GTID) :=
  getGTIDForPrimary_spec.2 5 7 (by decide)

/-- C5: under its precondition (`_liveGTIDs` empty), `resetManager(lastGTID)`
sets `_nextLiveGTID` to `lastGTID` with the primary half incremented (wrapping
64-bit) and `GTSeqNo` zero, sets `_minLiveGTID` to that value, and leaves the
unapplied-side state (and the live set) unchanged; `resetManager((5,9))` makes
the next allocation `(6,0)`. -/
theorem resetManager_spec :
    (∀ (s : GTIDManagerState) (lastGTID : GTID), resetManagerPre s →
      (resetManager s lastGTID)._nextLiveGTID = ⟨(lastGTID.primarySeqNo + 1) % u64, 0⟩ ∧
      (resetManager s lastGTID)._minLiveGTID = (resetManager s lastGTID)._nextLiveGTID ∧
      (resetManager s lastGTID)._minUnappliedGTID = s._minUnappliedGTID ∧
      (resetManager s lastGTID)._nextUnappliedGTID = s._nextUnappliedGTID ∧
      (resetManager s lastGTID)._unappliedGTIDs = s._unappliedGTIDs ∧
      (resetManager s lastGTID)._liveGTIDs = s._liveGTIDs) ∧
    (∀ (s : GTIDManagerState) (lastGTID : GTID), lastGTID.primarySeqNo + 1 < u64 →
      (resetManager s lastGTID)._nextLiveGTID = ⟨lastGTID.primarySeqNo + 1, 0⟩) ∧
    (∀ s : GTIDManagerState, (getGTIDForPrimary (resetManager s ⟨5, 9⟩)).1 = ⟨6, 0⟩) := by
  refine ⟨fun s lastGTID _ => ⟨rfl, rfl, rfl, rfl, rfl, rfl⟩, fun s lastGTID h => ?_,
    fun s => ?_⟩
  · show GTID.inc_primary lastGTID = _
    unfold GTID.inc_primary
    rw [Nat.mod_eq_of_lt h]
  · show GTID.inc_primary ⟨5, 9⟩ = _
    unfold GTID.inc_primary
    rw [Nat.mod_eq_of_lt (by norm_num [u64])]

/-- Witness for C5 at a concrete empty-live-set state and `lastGTID = (5,9)`. -/
theorem resetManager_spec_witness :
    (resetManager (GTIDManagerInit ⟨1, 1⟩) ⟨5, 9⟩)._nextLiveGTID = (⟨6, 0⟩ : GTID) ∧
    (resetManager (GTIDManagerInit ⟨1, 1⟩) ⟨5, 9⟩)._minLiveGTID =
      (resetManager (GTIDManagerInit ⟨1, 1⟩) ⟨5, 9⟩)._nextLiveGTID :=
  ⟨(resetManager_spec.2.1 (GTIDManagerInit ⟨1, 1⟩) ⟨5, 9⟩ (by decide)).trans (by decide),
   ((resetManager_spec.1 (GTIDManagerInit ⟨1, 1⟩) ⟨5, 9⟩ (by decide)).2.1)⟩

/-! ### The strengthened live-side invariant and its preservation -/

theorem GTID.lt_inc (g : GTID) (h : g.GTSeqNo + 1 < u64) : g < g.inc := by
  rw [GTID.lt_def]
  right
  refine ⟨rfl, ?_⟩
  show g.GTSeqNo < (g.GTSeqNo + 1) % u64
  rw [Nat.mod_eq_of_lt h]
  omega

theorem liveGTIDInvariantStrong_imp (s : GTIDManagerState)
    (h : liveGTIDInvariantStrong s) : liveGTIDInvariant s :=
  ⟨h.1, fun g hg => (h.2.1 g hg).le, h.2.2.1⟩

theorem liveGTIDInvariantStrong_min_le_next (s : GTIDManagerState)
    (h : liveGTIDInvariantStrong s) : s._minLiveGTID ≤ s._nextLiveGTID := by
  rcases s._liveGTIDs.eq_empty_or_nonempty with he | hne
  · exact (h.2.2.1 he).le
  · obtain ⟨g, hg⟩ := hne
    exact (h.1 g hg).trans (h.2.1 g hg).le

theorem liveGTIDInvariantStrong_init (lastGTID : GTID) :
    liveGTIDInvariantStrong (GTIDManagerInit lastGTID) := by
  refine ⟨?_, ?_, fun _ => rfl, ?_⟩
  · intro x hx
    exact absurd hx (Finset.not_mem_empty x)
  · intro x hx
    exact absurd hx (Finset.not_mem_empty x)
  · intro hne
    exact absurd hne Finset.not_nonempty_empty

theorem liveGTIDInvariantStrong_applyOp (s : GTIDManagerState) (op : GTIDOp)
    (hInv : liveGTIDInvariantStrong s) (hpre : opPreNW s op) :
    liveGTIDInvariantStrong (applyOp s op) := by
  obtain ⟨hmin, hlt, hemp, hmem⟩ := hInv
  cases op with
  | getForPrimary =>
    have hb : s._nextLiveGTID.GTSeqNo + 1 < u64 := hpre
    have hnn : s._nextLiveGTID < s._nextLiveGTID.inc := GTID.lt_inc _ hb
    have hmn : s._minLiveGTID ≤ s._nextLiveGTID :=
      liveGTIDInvariantStrong_min_le_next s ⟨hmin, hlt, hemp, hmem⟩
    simp only [applyOp, getGTIDForPrimary]
    refine ⟨?_, ?_, ?_, ?_⟩
    · intro x hx
      rcases Finset.mem_insert.mp hx with rfl | hx'
      · exact hmn
      · exact hmin x hx'
    · intro x hx
      rcases Finset.mem_insert.mp hx with rfl | hx'
      · exact hnn
      · exact (hlt x hx').trans hnn
    · intro habs
      exact absurd habs (Finset.insert_ne_empty _ _)
    · intro _
      rcases s._liveGTIDs.eq_empty_or_nonempty with he | hne
      · rw [hemp he]
        exact Finset.mem_insert_self _ _
      · exact Finset.mem_insert_of_mem (hmem hne)
  | noteLiveDone g =>
    have hpre' : g.Wellformed ∧ (0 ≤ GTID.cmp g s._minLiveGTID ∧ 0 < s._liveGTIDs.card) :=
      hpre
    obtain ⟨hwf, hge, hcard⟩ := hpre'
    simp only [applyOp, noteLiveGTIDDone]
    by_cases hc : GTID.cmp s._minLiveGTID g = 0
    · rw [if_pos hc]
      by_cases h0 : (s._liveGTIDs.erase g).card = 0
      · rw [dif_pos h0]
        have he : s._liveGTIDs.erase g = ∅ := Finset.card_eq_zero.mp h0
        refine ⟨?_, ?_, fun _ => rfl, ?_⟩
        · intro x hx
          rw [he] at hx
          exact absurd hx (Finset.not_mem_empty x)
        · intro x hx
          rw [he] at hx
          exact absurd hx (Finset.not_mem_empty x)
        · intro hne
          rw [he] at hne
          exact absurd hne Finset.not_nonempty_empty
      · rw [dif_neg h0]
        have hne : (s._liveGTIDs.erase g).Nonempty :=
          Finset.card_pos.mp (Nat.pos_of_ne_zero h0)
        refine ⟨?_, ?_, ?_, ?_⟩
        · intro x hx
          exact Finset.min'_le _ x hx
        · intro x hx
          exact hlt x (Finset.mem_of_mem_erase hx)
        · intro habs
          exact absurd habs (Finset.nonempty_iff_ne_empty.mp hne)
        · intro _
          exact Finset.min'_mem _ hne
    · rw [if_neg hc]
      have hgmin : s._minLiveGTID ≠ g := fun he => hc ((GTID.cmp_eq_zero_iff _ _).mpr he)
      have hlive : s._liveGTIDs.Nonempty := Finset.card_pos.mp hcard
      refine ⟨?_, ?_, ?_, ?_⟩
      · intro x hx
        exact hmin x (Finset.mem_of_mem_erase hx)
      · intro x hx
        exact hlt x (Finset.mem_of_mem_erase hx)
      · intro he
        have he' : s._liveGTIDs.erase g = ∅ := he
        have hminmem : s._minLiveGTID ∈ s._liveGTIDs.erase g :=
          Finset.mem_erase.mpr ⟨hgmin, hmem hlive⟩
        rw [he'] at hminmem
        exact absurd hminmem (Finset.not_mem_empty _)
      · intro _
        exact Finset.mem_erase.mpr ⟨hgmin, hmem hlive⟩
  | noteAdded g =>
    have hpre' : g.Wellformed ∧ (GTID.cmp s._nextLiveGTID s._minLiveGTID = 0 ∧
      GTID.cmp s._nextLiveGTID g ≤ 0) := hpre
    obtain ⟨hwf, heq, hle⟩ := hpre'
    have hminnext : s._nextLiveGTID = s._minLiveGTID := (GTID.cmp_eq_zero_iff _ _).mp heq
    have hliveempty : s._liveGTIDs = ∅ := by
      rcases s._liveGTIDs.eq_empty_or_nonempty with he | hne
      · exact he
      · exfalso
        have hmlt : s._minLiveGTID < s._nextLiveGTID := hlt _ (hmem hne)
        rw [hminnext] at hmlt
        exact absurd hmlt (lt_irrefl _)
    simp only [applyOp, noteGTIDAdded]
    refine ⟨?_, ?_, fun _ => rfl, ?_⟩
    · intro x hx
      rw [hliveempty] at hx
      exact absurd hx (Finset.not_mem_empty x)
    · intro x hx
      rw [hliveempty] at hx
      exact absurd hx (Finset.not_mem_empty x)
    · intro hne
      rw [hliveempty] at hne
      exact absurd hne Finset.not_nonempty_empty
  | noteApplying g =>
    simp only [applyOp, noteApplyingGTID]
    exact ⟨hmin, hlt, hemp, hmem⟩
  | noteApplied g =>
    simp only [applyOp, noteGTIDApplied]
    split
    · split
      · exact ⟨hmin, hlt, hemp, hmem⟩
      · exact ⟨hmin, hlt, hemp, hmem⟩
    · exact ⟨hmin, hlt, hemp, hmem⟩
  | reset g =>
    have hpre' : g.Wellformed ∧ s._liveGTIDs.card = 0 := hpre
    obtain ⟨hwf, hcard⟩ := hpre'
    have he : s._liveGTIDs = ∅ := Finset.card_eq_zero.mp hcard
    simp only [applyOp, resetManager]
    refine ⟨?_, ?_, fun _ => rfl, ?_⟩
    · intro x hx
      rw [he] at hx
      exact absurd hx (Finset.not_mem_empty x)
    · intro x hx
      rw [he] at hx
      exact absurd hx (Finset.not_mem_empty x)
    · intro hne
      rw [he] at hne
      exact absurd hne Finset.not_nonempty_empty

theorem nextLiveGTID_mono (s : GTIDManagerState) (op : GTIDOp)
    (hpre : opPreNW s op) (hnr : isReset op = false) :
    s._nextLiveGTID ≤ (applyOp s op)._nextLiveGTID := by
  cases op with
  | getForPrimary =>
    have hb : s._nextLiveGTID.GTSeqNo + 1 < u64 := hpre
    exact (GTID.lt_inc _ hb).le
  | noteLiveDone g =>
    simp only [applyOp, noteLiveGTIDDone]
    split
    · split
      · exact le_refl _
      · exact le_refl _
    · exact le_refl _
  | noteAdded g =>
    have hpre' : g.Wellformed ∧ (GTID.cmp s._nextLiveGTID s._minLiveGTID = 0 ∧
      GTID.cmp s._nextLiveGTID g ≤ 0) := hpre
    exact (GTID.cmp_le_zero_iff _ _).mp hpre'.2.2
  | noteApplying g => exact le_refl _
  | noteApplied g =>
    simp only [applyOp, noteGTIDApplied]
    split
    · split
      · exact le_refl _
      · exact le_refl _
    · exact le_refl _
  | reset g => simp [isReset] at hnr

theorem minLiveGTID_mono (s : GTIDManagerState) (op : GTIDOp)
    (hInv : liveGTIDInvariantStrong s) (hpre : opPreNW s op) (hnr : isReset op = false) :
    s._minLiveGTID ≤ (applyOp s op)._minLiveGTID := by
  obtain ⟨hmin, hlt, hemp, hmem⟩ := hInv
  cases op with
  | getForPrimary => exact le_refl _
  | noteLiveDone g =>
    simp only [applyOp, noteLiveGTIDDone]
    by_cases hc : GTID.cmp s._minLiveGTID g = 0
    · rw [if_pos hc]
      by_cases h0 : (s._liveGTIDs.erase g).card = 0
      · rw [dif_pos h0]
        exact liveGTIDInvariantStrong_min_le_next s ⟨hmin, hlt, hemp, hmem⟩
      · rw [dif_neg h0]
        have hne : (s._liveGTIDs.erase g).Nonempty :=
          Finset.card_pos.mp (Nat.pos_of_ne_zero h0)
        exact hmin _ (Finset.mem_of_mem_erase (Finset.min'_mem _ hne))
    · rw [if_neg hc]
  | noteAdded g =>
    have hpre' : g.Wellformed ∧ (GTID.cmp s._nextLiveGTID s._minLiveGTID = 0 ∧
      GTID.cmp s._nextLiveGTID g ≤ 0) := hpre
    exact (liveGTIDInvariantStrong_min_le_next s ⟨hmin, hlt, hemp, hmem⟩).trans
      ((GTID.cmp_le_zero_iff _ _).mp hpre'.2.2)
  | noteApplying g => exact le_refl _
  | noteApplied g =>
    simp only [applyOp, noteGTIDApplied]
    split
    · split
      · exact le_refl _
      · exact le_refl _
    · exact le_refl _
  | reset g => simp [isReset] at hnr

theorem runAllocs_lower_bound : ∀ (ops : List GTIDOp) (s : GTIDManagerState),
    liveGTIDInvariantStrong s → TraceOKNW s ops → NoReset ops →
    ∀ a ∈ runAllocs s ops, s._nextLiveGTID ≤ a := by
  intro ops
  induction ops with
  | nil =>
    intro s _ _ _ a ha
    simp [runAllocs] at ha
  | cons op ops ih =>
    intro s hInv htr hnr a ha
    have htr' : opPreNW s op ∧ TraceOKNW (applyOp s op) ops := htr
    obtain ⟨hp, htl⟩ := htr'
    have hnrh : isReset op = false := hnr op (List.mem_cons_self op ops)
    have hnrt : NoReset ops := fun x hx => hnr x (List.mem_cons_of_mem _ hx)
    have hInv' := liveGTIDInvariantStrong_applyOp s op hInv hp
    have hnext := nextLiveGTID_mono s op hp hnrh
    cases op with
    | getForPrimary =>
      simp only [runAllocs] at ha
      rcases List.mem_cons.mp ha with rfl | hmem
      · exact le_refl _
      · exact hnext.trans (ih _ hInv' htl hnrt a hmem)
    | noteLiveDone g =>
      simp only [runAllocs] at ha
      exact hnext.trans (ih _ hInv' htl hnrt a ha)
    | noteAdded g =>
      simp only [runAllocs] at ha
      exact hnext.trans (ih _ hInv' htl hnrt a ha)
    | noteApplying g =>
      simp only [runAllocs] at ha
      exact hnext.trans (ih _ hInv' htl hnrt a ha)
    | noteApplied g =>
      simp only [runAllocs] at ha
      exact hnext.trans (ih _ hInv' htl hnrt a ha)
    | reset g => simp [isReset] at hnrh

theorem runAllocs_pairwise : ∀ (ops : List GTIDOp) (s : GTIDManagerState),
    liveGTIDInvariantStrong s → TraceOKNW s ops → NoReset ops →
    List.Pairwise (fun a b : GTID => a < b) (runAllocs s ops) := by
  intro ops
  induction ops with
  | nil =>
    intro s _ _ _
    exact List.Pairwise.nil
  | cons op ops ih =>
    intro s hInv htr hnr
    have htr' : opPreNW s op ∧ TraceOKNW (applyOp s op) ops := htr
    obtain ⟨hp, htl⟩ := htr'
    have hnrh : isReset op = false := hnr op (List.mem_cons_self op ops)
    have hnrt : NoReset ops := fun x hx => hnr x (List.mem_cons_of_mem _ hx)
    have hInv' := liveGTIDInvariantStrong_applyOp s op hInv hp
    cases op with
    | getForPrimary =>
      have hb : s._nextLiveGTID.GTSeqNo + 1 < u64 := hp
      simp only [runAllocs]
      refine List.Pairwise.cons ?_ (ih _ hInv' htl hnrt)
      intro b hb'
      exact lt_of_lt_of_le (GTID.lt_inc _ hb)
        (runAllocs_lower_bound ops _ hInv' htl hnrt b hb')
    | noteLiveDone g =>
      simp only [runAllocs]
      exact ih _ hInv' htl hnrt
    | noteAdded g =>
      simp only [runAllocs]
      exact ih _ hInv' htl hnrt
    | noteApplying g =>
      simp only [runAllocs]
      exact ih _ hInv' htl hnrt
    | noteApplied g =>
      simp only [runAllocs]
      exact ih _ hInv' htl hnrt
    | reset g => simp [isReset] at hnrh

theorem runMins_head_eq : ∀ (ops : List GTIDOp) (s : GTIDManagerState),
    (runMins s ops).head? = some s._minLiveGTID := by
  intro ops s
  cases ops <;> rfl

theorem runMins_chain : ∀ (ops : List GTIDOp) (s : GTIDManagerState),
    liveGTIDInvariantStrong s → TraceOKNW s ops → NoReset ops →
    List.Chain' (fun a b : GTID => a ≤ b) (runMins s ops) := by
  intro ops
  induction ops with
  | nil =>
    intro s _ _ _
    exact List.chain'_singleton _
  | cons op ops ih =>
    intro s hInv htr hnr
    have htr' : opPreNW s op ∧ TraceOKNW (applyOp s op) ops := htr
    obtain ⟨hp, htl⟩ := htr'
    have hnrh : isReset op = false := hnr op (List.mem_cons_self op ops)
    have hnrt : NoReset ops := fun x hx => hnr x (List.mem_cons_of_mem _ hx)
    have hInv' := liveGTIDInvariantStrong_applyOp s op hInv hp
    have hmono := minLiveGTID_mono s op hInv hp hnrh
    simp only [runMins]
    rw [List.chain'_cons']
    constructor
    · intro b hb
      rw [runMins_head_eq] at hb
      rw [Option.mem_some_iff] at hb
      rw [← hb]
      exact hmono
    · exact ih _ hInv' htl hnrt

/-! ### Claim theorems: counterexamples from 64-bit wraparound and construction -/

/-- C2 counterexample: the spec's live-side invariant is not preserved by
`getGTIDForPrimary` as such. From the reachable (constructor) state for
`lastGTID = (0, 2^64−2)` — where the invariant holds and the call has no
`dassert` — one `getGTIDForPrimary` wraps `_nextLiveGTID.GTSeqNo` to 0, leaving
a live GTID above `_nextLiveGTID`. -/
theorem liveGTIDInvariant_not_preserved_cex :
    Reachable (GTIDManagerInit ⟨0, u64 - 2⟩) ∧
    liveGTIDInvariant (GTIDManagerInit ⟨0, u64 - 2⟩) ∧
    opPre (GTIDManagerInit ⟨0, u64 - 2⟩) .getForPrimary ∧
    Reachable (applyOp (GTIDManagerInit ⟨0, u64 - 2⟩) .getForPrimary) ∧
    ¬ liveGTIDInvariant (applyOp (GTIDManagerInit ⟨0, u64 - 2⟩) .getForPrimary) :=
  ⟨.init _ (by decide), by decide, by decide,
   .step _ _ (.init _ (by decide)) (by decide), by decide⟩

/-- C6 counterexample: allocations on a single primary are not strictly
increasing once the 64-bit `GTSeqNo` wraps: constructing at
`(0, 2^64−2)` and calling `getGTIDForPrimary` twice (no `resetManager`, all
`dassert`s hold) returns `(0, 2^64−1)` and then `(0, 0)`. -/
theorem allocations_not_increasing_cex :
    GTID.Wellformed ⟨0, u64 - 2⟩ ∧
    TraceOK (GTIDManagerInit ⟨0, u64 - 2⟩) [.getForPrimary, .getForPrimary] ∧
    NoReset [.getForPrimary, .getForPrimary] ∧
    runAllocs (GTIDManagerInit ⟨0, u64 - 2⟩) [.getForPrimary, .getForPrimary] =
      [⟨0, u64 - 1⟩, ⟨0, 0⟩] ∧
    ¬ List.Pairwise (fun a b : GTID => a < b)
      (runAllocs (GTIDManagerInit ⟨0, u64 - 2⟩) [.getForPrimary, .getForPrimary]) :=
  ⟨by decide, by decide, by decide, by decide, by decide⟩

/-- C4 counterexample: `minUnappliedGTID = minLiveGTID` does not hold in every
state reachable through primary-side calls: at construction from `GTID(5,7)`
(zero calls), `_minUnappliedGTID` is the default `(0,0)` while `_minLiveGTID`
is `(5,8)`. -/
theorem minUnapplied_ne_minLive_at_init_cex :
    ReachablePrimary (GTIDManagerInit ⟨5, 7⟩) ∧
    (GTIDManagerInit ⟨5, 7⟩)._minUnappliedGTID ≠ (GTIDManagerInit ⟨5, 7⟩)._minLiveGTID :=
  ⟨.init _ (by decide), by decide⟩

/-- C4 (amended): `noteLiveGTIDDone` establishes
`_minUnappliedGTID = _minLiveGTID` whenever it erases the current minimum (the
recompute branch), and the equality, once it holds, is preserved by
`getGTIDForPrimary` and by every further `noteLiveGTIDDone`. (It does not hold
at construction, where `_minUnappliedGTID` is default-initialized.) -/
theorem minUnappliedGTID_eq_minLiveGTID_amended :
    (∀ (s : GTIDManagerState) (g : GTID), GTID.cmp s._minLiveGTID g = 0 →
      (noteLiveGTIDDone s g)._minUnappliedGTID = (noteLiveGTIDDone s g)._minLiveGTID) ∧
    (∀ s : GTIDManagerState, s._minUnappliedGTID = s._minLiveGTID →
      (getGTIDForPrimary s).2._minUnappliedGTID = (getGTIDForPrimary s).2._minLiveGTID ∧
      (∀ g : GTID, (noteLiveGTIDDone s g)._minUnappliedGTID =
        (noteLiveGTIDDone s g)._minLiveGTID)) := by
  have hkey : ∀ (s : GTIDManagerState) (g : GTID),
      s._minUnappliedGTID = s._minLiveGTID ∨ GTID.cmp s._minLiveGTID g = 0 →
      (noteLiveGTIDDone s g)._minUnappliedGTID = (noteLiveGTIDDone s g)._minLiveGTID := by
    intro s g h
    by_cases hc : GTID.cmp s._minLiveGTID g = 0
    · simp only [noteLiveGTIDDone]
      rw [if_pos hc]
      split <;> rfl
    · rcases h with heq | hc0
      · simp only [noteLiveGTIDDone]
        rw [if_neg hc]
        exact heq
      · exact absurd hc0 hc
  exact ⟨fun s g hc => hkey s g (Or.inr hc),
    fun s heq => ⟨heq, fun g => hkey s g (Or.inl heq)⟩⟩

/-- Witness for the amended C4: after `new(GTID(5,7))` and one allocation,
completing `(5,8)` (the minimum) makes both minima `(5,9)`. -/
theorem minUnappliedGTID_eq_minLiveGTID_amended_witness :
    (noteLiveGTIDDone (applyOp (GTIDManagerInit ⟨5, 7⟩) .getForPrimary)
        ⟨5, 8⟩)._minUnappliedGTID =
      (noteLiveGTIDDone (applyOp (GTIDManagerInit ⟨5, 7⟩) .getForPrimary)
        ⟨5, 8⟩)._minLiveGTID :=
  minUnappliedGTID_eq_minLiveGTID_amended.1 _ ⟨5, 8⟩ (by decide)

/-- C2 (amended): in every state reachable from the constructor through
`getGTIDForPrimary`, `noteLiveGTIDDone`, `noteGTIDAdded`, `resetManager` (and
the unapplied-side calls) under their `dassert` preconditions — with the added
condition that `getGTIDForPrimary` is only invoked while the 64-bit `GTSeqNo`
of `_nextLiveGTID` cannot wrap — the live-side invariant holds: `_minLiveGTID`
is at most every element of `_liveGTIDs`, every element is at most
`_nextLiveGTID`, and when `_liveGTIDs` is empty, `_minLiveGTID` equals
`_nextLiveGTID`. -/
theorem liveGTIDInvariant_reachable (s : GTIDManagerState) (h : ReachableNW s) :
    liveGTIDInvariant s := by
  have hstrong : liveGTIDInvariantStrong s := by
    induction h with
    | init lastGTID hwf => exact liveGTIDInvariantStrong_init lastGTID
    | step s op hs hp ih => exact liveGTIDInvariantStrong_applyOp s op ih hp
  exact liveGTIDInvariantStrong_imp s hstrong

/-- Witness for the amended C2: the invariant holds after `new(GTID(5,7))`,
two allocations and one completion. -/
theorem liveGTIDInvariant_reachable_witness :
    liveGTIDInvariant (applyOp (applyOp (applyOp (GTIDManagerInit ⟨5, 7⟩)
      .getForPrimary) .getForPrimary) (.noteLiveDone ⟨5, 8⟩)) :=
  liveGTIDInvariant_reachable _
    (.step _ _ (.step _ _ (.step _ _ (.init _ (by decide)) (by decide)) (by decide))
      (by decide))

/-- C6 (amended): in any sequence of `GTIDManager` calls without `resetManager`
whose `dassert`s hold and in which `getGTIDForPrimary` is only invoked while
incrementing `_nextLiveGTID` cannot wrap its 64-bit `GTSeqNo`, the GTIDs
returned by successive `getGTIDForPrimary` calls are strictly increasing, and
`_minLiveGTID` is monotonically non-decreasing across every call. -/
theorem allocations_increasing_minLive_monotone (lastGTID : GTID) (ops : List GTIDOp)
    (_hwf : lastGTID.Wellformed) (htr : TraceOKNW (GTIDManagerInit lastGTID) ops)
    (hnr : NoReset ops) :
    List.Pairwise (fun a b : GTID => a < b) (runAllocs (GTIDManagerInit lastGTID) ops) ∧
    List.Chain' (fun a b : GTID => a ≤ b) (runMins (GTIDManagerInit lastGTID) ops) :=
  ⟨runAllocs_pairwise ops _ (liveGTIDInvariantStrong_init lastGTID) htr hnr,
   runMins_chain ops _ (liveGTIDInvariantStrong_init lastGTID) htr hnr⟩

/-- Witness for the amended C6 on the S6 scenario: `new(GTID(5,7))`, two
allocations, then completing `(5,8)` — allocations `(5,8), (5,9)` are strictly
increasing and `_minLiveGTID` never decreases. -/
theorem allocations_increasing_minLive_monotone_witness :
    List.Pairwise (fun a b : GTID => a < b) (runAllocs (GTIDManagerInit ⟨5, 7⟩)
      [.getForPrimary, .getForPrimary, .noteLiveDone ⟨5, 8⟩]) ∧
    List.Chain' (fun a b : GTID => a ≤ b) (runMins (GTIDManagerInit ⟨5, 7⟩)
      [.getForPrimary, .getForPrimary, .noteLiveDone ⟨5, 8⟩]) :=
  allocations_increasing_minLive_monotone ⟨5, 7⟩ _ (by decide) (by decide) (by decide)

end Mongo
